import Mathlib

/-!
Verification development for the subprocess transport of the
claude-code-sdk-go repository (package `claudecode`, file
`subprocess_transport.go`).

The development shallowly embeds:
* the output-decoder loop of `SubprocessTransport.Receive` (line framing,
  the pending-decode buffer with its 1 MiB cap, control-response filtering),
  together with a model of `bufio.Scanner` token limits;
* the transport lifecycle (`Connect` / `streamToStdin` / `Receive` /
  `Close` / `cleanup`) as a labelled transition system whose actions mirror
  the statements of the Go source, with goroutine interleavings made
  explicit;
* `findCLI` and the failure paths of `Connect` as pure functions.

Machine integers do not occur; all sizes are `Nat` byte counts.
-/

namespace ClaudeCode

/-- `maxBufferSize = 1024 * 1024`: the 1 MiB limit used both for the
`bufio.Scanner` buffer and for the pending-decode JSON buffer. -/
def maxBufferSize : Nat := 1024 * 1024

/-- `stderrLines = 100`: number of stderr lines kept by `readStderr`. -/
def stderrLines : Nat := 100

/-- JSON-compatible values, the codomain of `encoding/json` unmarshalling
into `map[string]any`. -/
inductive JVal where
  | null : JVal
  | bool : Bool → JVal
  | num : Int → JVal
  | str : String → JVal
  | arr : List JVal → JVal
  | obj : List (String × JVal) → JVal

/-- A decoded protocol frame: the `map[string]any` produced by
`json.Unmarshal`, rendered as an association list with unique keys. -/
abbrev Msg := List (String × JVal)

/-- The Go comparison `data["type"] == "control_response"`: a missing key
yields `nil`, which compares unequal to any string; a non-string value also
compares unequal. -/
def isControlResponse (m : Msg) : Bool :=
  match m.lookup "type" with
  | some (JVal.str s) => s = "control_response"
  | _ => false

/-- Byte length of a string, modelling Go `len`/`bytes.Buffer.Len` (Go
strings are UTF-8 byte sequences). -/
def byteLen (s : String) : Nat :=
  (s.data.map Char.utf8Size).sum

/-- The white-space predicate of Go `unicode.IsSpace` restricted to the
ASCII range (the only characters relevant to the JSON wire protocol). -/
def isGoSpace (c : Char) : Bool :=
  c = ' ' || c = '\t' || c = '\n' || c = '\x0d' || c = '\x0b' || c = '\x0c'

/-- Model of `strings.TrimSpace`: drop white space from both ends. -/
def trimSpace (s : String) : String :=
  String.mk (((s.data.dropWhile isGoSpace).reverse.dropWhile isGoSpace).reverse)

/-- Splitting a character list at every newline, the workhorse of
`goSplitNewline`.  The result is always non-empty; adjacent separators
produce empty pieces, exactly as `strings.Split` does. -/
def splitNl : List Char → List (List Char)
  | [] => [[]]
  | c :: cs =>
    match splitNl cs with
    | [] => [[c]]
    | h :: t => if c = '\n' then [] :: h :: t else (c :: h) :: t

/-- Model of Go `strings.Split(line, "\n")`: the pieces of the line between
newline characters, in order. -/
def goSplitNewline (s : String) : List String :=
  (splitNl s.data).map String.mk

/-- Model of the `dropCR` step of `bufio.ScanLines`: a carriage return
immediately before the newline is stripped from the token. -/
def dropCR (s : String) : String :=
  match s.data.getLast? with
  | some c => if c = '\x0d' then String.mk s.data.dropLast else s
  | none => s

/-- Model of `bufio.Scanner` with `Scan`/`ScanLines` and a buffer capped at
`maxBufferSize` (the transport calls
`scanner.Buffer(make([]byte, 0, maxBufferSize), maxBufferSize)`).
The input is the output stream pre-split at newline bytes.  Lines are
yielded in order with trailing carriage returns stripped; on the first line
of at least `maxBufferSize` bytes the internal buffer fills without a
newline, `Scan` returns `false` with `ErrTooLong`, and no further token is
ever produced. -/
def scanTokens (raw : List String) : List String :=
  (raw.takeWhile (fun l => byteLen l < maxBufferSize)).map dropCR

/-- State of one decode session: the pending-decode buffer (`jsonBuffer`)
and the messages emitted on the output channel so far, in order. -/
structure DecSt where
  buffer : String
  emitted : List Msg

/-- Initial decode state: empty buffer, nothing emitted. -/
def DecSt.init : DecSt := ⟨"", []⟩

/-- One iteration of the inner loop of `Receive`s goroutine, processing a
single sub-line (after the defensive `strings.Split(line, "\n")`):
trim; skip if empty; append to the buffer; if the buffer now exceeds
`maxBufferSize` discard it; otherwise attempt a parse, and on success reset
the buffer and emit the object unless its type tag is `control_response`.
The JSON codec (`json.Unmarshal` restricted to complete single objects) is
the external collaborator `parse`. -/
def processSubLine (parse : String → Option Msg) (st : DecSt) (raw : String) : DecSt :=
  let jsonLine := trimSpace raw
  if jsonLine = "" then st
  else
    let buf := st.buffer ++ jsonLine
    if byteLen buf > maxBufferSize then
      { st with buffer := "" }
    else
      match parse buf with
      | some data =>
          if isControlResponse data then { buffer := "", emitted := st.emitted }
          else { buffer := "", emitted := st.emitted ++ [data] }
      | none => { st with buffer := buf }

/-- One iteration of the outer loop of `Receive`s goroutine for one scanner
token: skip empty lines, then process each piece of
`strings.Split(line, "\n")` in order. -/
def processLine (parse : String → Option Msg) (st : DecSt) (line : String) : DecSt :=
  if line = "" then st
  else (goSplitNewline line).foldl (processSubLine parse) st

/-- Run the decode loop over a list of scanner tokens. -/
def decodeTokens (parse : String → Option Msg) (st : DecSt) (tokens : List String) : DecSt :=
  tokens.foldl (processLine parse) st

/-- End-to-end output decoder: the raw stream (pre-split at newlines) goes
through the capped scanner, then through the decode loop, starting from the
empty buffer.  `(decodeStream parse raw).emitted` is the full sequence of
messages delivered on the channel returned by `Receive` (for an undisturbed
consumer: context not cancelled, channel drained). -/
def decodeStream (parse : String → Option Msg) (raw : List String) : DecSt :=
  decodeTokens parse DecSt.init (scanTokens raw)

/-- The well-formedness conditions under which one raw line carries exactly
one complete frame: it is its own trim (no surrounding white space, hence
also no trailing carriage return for `dropCR`), non-empty, contains no
embedded newline, and fits strictly below the scanner cap. -/
def lineOk (l : String) : Prop :=
  trimSpace l = l ∧ l ≠ "" ∧ goSplitNewline l = [l] ∧
    dropCR l = l ∧ byteLen l < maxBufferSize

instance : DecidablePred lineOk := fun l => by
  unfold lineOk
  infer_instance

/-- The joint hypothesis of the frame-per-line theorems: the line parses to
exactly the given message and is a well-formed single-frame line. -/
def lineFor (parse : String → Option Msg) (l : String) (m : Msg) : Prop :=
  parse l = some m ∧ lineOk l

theorem byteLen_empty : byteLen "" = 0 := rfl

theorem empty_append (s : String) : "" ++ s = s := by
  apply String.ext
  rw [String.data_append]
  rfl

theorem byteLen_append (a b : String) : byteLen (a ++ b) = byteLen a + byteLen b := by
  unfold byteLen
  rw [String.data_append, List.map_append, List.sum_append]

theorem string_append_assoc (a b c : String) : (a ++ b) ++ c = a ++ (b ++ c) := by
  apply String.ext
  simp only [String.data_append, List.append_assoc]

/-- Processing a single well-formed fully-parsing line from an empty-buffer
state: the buffer is reset and the message is emitted unless it is a
control-response frame. -/
theorem processLine_complete (parse : String → Option Msg) (l : String) (m : Msg)
    (e : List Msg) (h : lineFor parse l m) :
    processLine parse ⟨"", e⟩ l =
      ⟨"", if isControlResponse m then e else e ++ [m]⟩ := by
  obtain ⟨hp, htrim, hne, hsplit, _, hlt⟩ := h
  unfold processLine
  rw [if_neg hne, hsplit]
  show processSubLine parse ⟨"", e⟩ l = _
  unfold processSubLine
  simp only [htrim, if_neg hne, empty_append, hp]
  rw [if_neg (by omega : ¬ byteLen l > maxBufferSize)]
  by_cases hc : isControlResponse m
  · simp [hc]
  · simp [hc]

/-- Running the decode loop over a sequence of well-formed one-frame-per-line
tokens, starting from an empty buffer: every frame is decoded and emitted in
order, except control-response frames, and the buffer ends empty. -/
theorem decodeTokens_complete (parse : String → Option Msg)
    (lines : List String) (msgs : List Msg) (e : List Msg)
    (h : List.Forall₂ (lineFor parse) lines msgs) :
    decodeTokens parse ⟨"", e⟩ lines =
      ⟨"", e ++ msgs.filter (fun m => !(isControlResponse m))⟩ := by
  induction h generalizing e with
  | nil => simp [decodeTokens]
  | cons hlm hrest ih =>
      rename_i l m ls ms
      show decodeTokens parse (processLine parse ⟨"", e⟩ l) ls = _
      rw [processLine_complete parse l m e hlm]
      by_cases hc : isControlResponse m
      · rw [if_pos hc, ih]
        simp [List.filter_cons, hc]
      · rw [if_neg hc, ih]
        simp [List.filter_cons, hc]

theorem forall₂_mem_left {α β : Type} {R : α → β → Prop} {l : List α} {r : List β}
    (h : List.Forall₂ R l r) {a : α} (ha : a ∈ l) : ∃ b, b ∈ r ∧ R a b := by
  induction h with
  | nil => cases ha
  | cons hab _ ih =>
      rcases List.mem_cons.mp ha with rfl | ha
      · exact ⟨_, List.mem_cons_self _ _, hab⟩
      · obtain ⟨b, hb, hRb⟩ := ih ha
        exact ⟨b, List.mem_cons_of_mem _ hb, hRb⟩

/-- A well-formed single-frame line passes the scanner untouched. -/
theorem scanTokens_ok (lines : List String) (hok : ∀ l ∈ lines, lineOk l) :
    scanTokens lines = lines := by
  unfold scanTokens
  rw [List.takeWhile_eq_self_iff.mpr (fun l hl => by
    have := (hok l hl).2.2.2.2
    simpa using this)]
  have : List.map dropCR lines = List.map id lines :=
    List.map_congr_left (fun l hl => (hok l hl).2.2.2.1)
  rw [this, List.map_id]

/-- A small concrete JSON codec used to instantiate the decoder theorems:
it recognises three single-object serialisations, exactly the behaviour of
`json.Unmarshal` on these inputs. -/
def demoParse (s : String) : Option Msg :=
  if s = "\x7b\"type\":\"assistant\"\x7d" then some [("type", JVal.str "assistant")]
  else if s = "\x7b\"type\":\"control_response\"\x7d" then
    some [("type", JVal.str "control_response")]
  else if s = "\x7b\"type\":\"result\"\x7d" then some [("type", JVal.str "result")]
  else none

/-- C1: for every sequence of well-formed JSON objects written one per line
to the subprocess output stream, the channel returned by `Receive` emits
exactly one decoded `Message` per input object, in stream order, except
that every object whose `type` field equals `control_response` is consumed
and never forwarded. -/
theorem receive_emits_each_frame_in_order
    (parse : String → Option Msg) (lines : List String) (msgs : List Msg)
    (h : List.Forall₂ (lineFor parse) lines msgs) :
    (decodeStream parse lines).emitted =
      msgs.filter (fun m => !(isControlResponse m)) := by
  unfold decodeStream
  rw [scanTokens_ok lines (fun l hl => by
    obtain ⟨m, -, hm⟩ := forall₂_mem_left h hl
    exact hm.2)]
  rw [show DecSt.init = (⟨"", []⟩ : DecSt) from rfl]
  rw [decodeTokens_complete parse lines msgs [] h]
  simp

/-- Witness for C1 at a concrete three-frame stream: the control-response
frame is dropped, the other two arrive in order. -/
theorem receive_emits_each_frame_in_order_witness :
    (decodeStream demoParse
        ["\x7b\"type\":\"assistant\"\x7d",
         "\x7b\"type\":\"control_response\"\x7d",
         "\x7b\"type\":\"result\"\x7d"]).emitted =
      [[("type", JVal.str "assistant")], [("type", JVal.str "result")]] := by
  have h : List.Forall₂ (lineFor demoParse)
      ["\x7b\"type\":\"assistant\"\x7d",
       "\x7b\"type\":\"control_response\"\x7d",
       "\x7b\"type\":\"result\"\x7d"]
      [[("type", JVal.str "assistant")],
       [("type", JVal.str "control_response")],
       [("type", JVal.str "result")]] := by
    refine .cons ⟨rfl, by decide⟩ (.cons ⟨rfl, by decide⟩ (.cons ⟨rfl, by decide⟩ .nil))
  rw [receive_emits_each_frame_in_order demoParse _ _ h]
  rfl

/-- Unfolding of `processSubLine` for a trim-fixed non-empty sub-line. -/
theorem processSubLine_eq (parse : String → Option Msg) (st : DecSt) (raw : String)
    (h : trimSpace raw = raw) (hne : raw ≠ "") :
    processSubLine parse st raw =
      (if byteLen (st.buffer ++ raw) > maxBufferSize then { st with buffer := "" }
       else match parse (st.buffer ++ raw) with
         | some data =>
             if isControlResponse data then ⟨"", st.emitted⟩
             else ⟨"", st.emitted ++ [data]⟩
         | none => { st with buffer := st.buffer ++ raw }) := by
  unfold processSubLine
  rw [h, if_neg hne]

/-- Unfolding of `processLine` for a well-formed single-frame line. -/
theorem processLine_single (parse : String → Option Msg) (st : DecSt) (l : String)
    (hne : l ≠ "") (hsplit : goSplitNewline l = [l]) :
    processLine parse st l = processSubLine parse st l := by
  unfold processLine
  rw [if_neg hne, hsplit]
  rfl

/-- C3: a well-formed JSON object arriving split as two consecutive partial
line fragments is reassembled by the pending-decode buffer and emitted
exactly once, with the same decode result as the unsplit arrival.
The hypothesis `h1` reflects that no proper prefix of a serialised JSON
object is itself a complete object. -/
theorem split_frame_equals_unsplit
    (parse : String → Option Msg) (f1 f2 : String) (m : Msg)
    (h1 : parse f1 = none) (h2 : parse (f1 ++ f2) = some m)
    (hok1 : lineOk f1) (hok2 : lineOk f2) (hok12 : lineOk (f1 ++ f2))
    (hctl : isControlResponse m = false) :
    decodeStream parse [f1, f2] = decodeStream parse [f1 ++ f2] ∧
      (decodeStream parse [f1, f2]).emitted = [m] := by
  obtain ⟨ht1, hne1, hsp1, hcr1, hlt1⟩ := hok1
  obtain ⟨ht2, hne2, hsp2, hcr2, hlt2⟩ := hok2
  obtain ⟨ht12, hne12, hsp12, hcr12, hlt12⟩ := hok12
  have hlen : byteLen (f1 ++ f2) = byteLen f1 + byteLen f2 := byteLen_append f1 f2
  have hsplitSide : decodeStream parse [f1, f2] = ⟨"", [m]⟩ := by
    unfold decodeStream
    rw [scanTokens_ok [f1, f2] (by
      intro l hl
      rcases List.mem_cons.mp hl with rfl | hl
      · exact ⟨ht1, hne1, hsp1, hcr1, hlt1⟩
      · rcases List.mem_cons.mp hl with rfl | hl
        · exact ⟨ht2, hne2, hsp2, hcr2, hlt2⟩
        · cases hl)]
    show processLine parse (processLine parse DecSt.init f1) f2 = _
    rw [show DecSt.init = (⟨"", []⟩ : DecSt) from rfl]
    rw [processLine_single parse _ f1 hne1 hsp1,
      processSubLine_eq parse _ f1 ht1 hne1]
    rw [if_neg (by
      show ¬ byteLen ((⟨"", []⟩ : DecSt).buffer ++ f1) > maxBufferSize
      rw [show (⟨"", []⟩ : DecSt).buffer = "" from rfl, empty_append]
      omega)]
    rw [show (⟨"", []⟩ : DecSt).buffer ++ f1 = f1 from empty_append f1]
    rw [h1]
    rw [processLine_single parse _ f2 hne2 hsp2,
      processSubLine_eq parse _ f2 ht2 hne2]
    show (if byteLen (f1 ++ f2) > maxBufferSize then _ else _) = _
    rw [if_neg (by omega)]
    rw [h2]
    simp [hctl]
  have hunsplitSide : decodeStream parse [f1 ++ f2] = ⟨"", [m]⟩ := by
    unfold decodeStream
    rw [scanTokens_ok [f1 ++ f2] (by
      intro l hl
      rcases List.mem_cons.mp hl with rfl | hl
      · exact ⟨ht12, hne12, hsp12, hcr12, hlt12⟩
      · cases hl)]
    show processLine parse DecSt.init (f1 ++ f2) = _
    rw [show DecSt.init = (⟨"", []⟩ : DecSt) from rfl]
    rw [processLine_single parse _ (f1 ++ f2) hne12 hsp12,
      processSubLine_eq parse _ (f1 ++ f2) ht12 hne12]
    rw [show (⟨"", []⟩ : DecSt).buffer ++ (f1 ++ f2) = f1 ++ f2 from empty_append _]
    rw [if_neg (by omega)]
    rw [h2]
    simp [hctl]
  rw [hsplitSide, hunsplitSide]
  exact ⟨rfl, rfl⟩

/-- Witness for C3: the assistant frame split after `"as` is reassembled
and emitted once, identically to the unsplit frame. -/
theorem split_frame_equals_unsplit_witness :
    decodeStream demoParse ["\x7b\"type\":\"as", "sistant\"\x7d"] =
        decodeStream demoParse ["\x7b\"type\":\"as" ++ "sistant\"\x7d"] ∧
      (decodeStream demoParse ["\x7b\"type\":\"as", "sistant\"\x7d"]).emitted =
        [[("type", JVal.str "assistant")]] :=
  split_frame_equals_unsplit demoParse "\x7b\"type\":\"as" "sistant\"\x7d"
    [("type", JVal.str "assistant")] rfl rfl (by decide) (by decide) (by decide) rfl

/-- A string of `n` copies of the ASCII character x. -/
def manyX (n : Nat) : String := String.mk (List.replicate n 'x')

theorem byteLen_manyX (n : Nat) : byteLen (manyX n) = n := by
  unfold byteLen manyX
  rw [show (String.mk (List.replicate n 'x')).data = List.replicate n 'x' from rfl]
  rw [List.map_replicate, List.sum_replicate]
  rw [show Char.utf8Size 'x' = 1 from rfl]
  simp

/-- C2 counterexample: a malformed fragment of `maxBufferSize + 1` bytes
arriving as a single line exceeds the `bufio.Scanner` token cap, `Scan`
fails with `ErrTooLong`, the decode loop ends, and the well-formed
assistant frame behind the fragment is never delivered. -/
theorem oversized_line_stops_decoding :
    (decodeStream demoParse
        [manyX (maxBufferSize + 1), "\x7b\"type\":\"assistant\"\x7d"]).emitted = [] ∧
      byteLen (manyX (maxBufferSize + 1)) > maxBufferSize ∧
      demoParse (manyX (maxBufferSize + 1)) = none ∧
      demoParse "\x7b\"type\":\"assistant\"\x7d" = some [("type", JVal.str "assistant")] ∧
      isControlResponse [("type", JVal.str "assistant")] = false := by
  refine ⟨?_, ?_, ?_, rfl, rfl⟩
  · unfold decodeStream scanTokens
    rw [List.takeWhile_cons, if_neg (by
      rw [byteLen_manyX]
      decide)]
    rfl
  · rw [byteLen_manyX]
    decide
  · rfl

/-- C2 amended: when the oversized malformed fragment reaches the decode
loop as scanner lines, the pending-decode buffer is discarded the moment it
would exceed `maxBufferSize`, the decoder does not fail, and every
well-formed frame after the fragment is still emitted. -/
theorem buffer_overflow_discards_and_continues
    (parse : String → Option Msg) (st : DecSt) (frag : String)
    (goodLines : List String) (msgs : List Msg)
    (hover : byteLen st.buffer + byteLen (trimSpace frag) > maxBufferSize)
    (hne : frag ≠ "") (htne : trimSpace frag ≠ "")
    (hsplit : goSplitNewline frag = [frag])
    (hgood : List.Forall₂ (lineFor parse) goodLines msgs) :
    decodeTokens parse st (frag :: goodLines) =
      ⟨"", st.emitted ++ msgs.filter (fun m => !(isControlResponse m))⟩ := by
  obtain ⟨b, e⟩ := st
  have hstep : processSubLine parse ⟨b, e⟩ frag = ⟨"", e⟩ := by
    unfold processSubLine
    rw [if_neg htne, if_pos (by
      rw [byteLen_append]
      exact hover)]
  show decodeTokens parse (processLine parse ⟨b, e⟩ frag) goodLines = _
  rw [processLine_single parse _ frag hne hsplit, hstep]
  exact decodeTokens_complete parse goodLines msgs e hgood

set_option maxRecDepth 4000 in
/-- Witness for the amended C2: a pending buffer of exactly `maxBufferSize`
bytes plus one more malformed byte overflows, is discarded, and the
following assistant frame is still emitted. -/
theorem buffer_overflow_discards_and_continues_witness :
    decodeTokens demoParse ⟨manyX maxBufferSize, []⟩
        ["x", "\x7b\"type\":\"assistant\"\x7d"] =
      ⟨"", [[("type", JVal.str "assistant")]]⟩ := by
  have h := buffer_overflow_discards_and_continues demoParse
    ⟨manyX maxBufferSize, []⟩ "x" ["\x7b\"type\":\"assistant\"\x7d"]
    [[("type", JVal.str "assistant")]]
    (by
      have hb : (DecSt.mk (manyX maxBufferSize) ([] : List Msg)).buffer
          = manyX maxBufferSize := rfl
      rw [hb, byteLen_manyX, show trimSpace "x" = "x" from rfl]
      decide)
    (by decide) (by decide) (by decide)
    (.cons ⟨rfl, by decide⟩ .nil)
  exact h.trans (by rfl)

/-! ## Transport lifecycle

A labelled transition system for `SubprocessTransport`.  Each action is one
atomic piece of the Go source: `Connect` (which holds the mutex for its
whole body), the deferred close in `streamToStdin`, the spawning of the
decode goroutine in `Receive`, the statements of `Close` between its
blocking points, the `cleanup` helper, and the environment events (process
exit, context cancellation, scheduler interleavings).  `cmd.Wait()` and the
deferred `close(t.receiveDone)` of the decode goroutine are separate
actions because real code (error logging, `readStderr`) runs between them.
Modelled from the Go standard library: `Process.Kill` returns
`ErrProcessDone` exactly when the process has already been reaped by a
`Wait` call, and succeeds otherwise (SIGKILL to a live or zombie child);
`close` of an already closed channel panics. -/

/-- Phase of an in-flight `Close` call: `idle` (no call holding the mutex
past its entry check), `selecting` (blocked on the
`receiveDone`/5-second-timeout select), `cleaning` (about to run
`cleanup`). -/
inductive ClosePhase where
  | idle : ClosePhase
  | selecting : ClosePhase
  | cleaning : ClosePhase
  deriving DecidableEq, Repr

/-- Model state of one `SubprocessTransport` plus instrumentation counters
(`stdinCloseCalls`, `waitCalls`, `killCalls`, `recvFinishCount`,
`closeReturns`) recording what happened.  `closeReturns` lists the results
of completed `Close` calls in order, `true` standing for a `nil` error. -/
structure TransportState where
  connected : Bool := false
  started : Bool := false
  stdinPresent : Bool := false
  stdinClosed : Bool := false
  stdinCloseCalls : Nat := 0
  stderrFileOnDisk : Bool := false
  feederRunning : Bool := false
  recvScanning : Nat := 0
  recvPreClose : Nat := 0
  recvFinishCount : Nat := 0
  recvWaited : Bool := false
  waitCalls : Nat := 0
  receiveDoneClosed : Bool := false
  panicked : Bool := false
  procExited : Bool := false
  killCalls : Nat := 0
  closePhase : ClosePhase := .idle
  closeReturns : List Bool := []
  receiveCalls : Nat := 0
  deriving DecidableEq, Repr

/-- The freshly constructed transport. -/
def TransportState.init : TransportState := {}

/-- Atomic actions of the lifecycle.  Goroutine-internal steps and
environment events interleave freely with the phases of `Close`. -/
inductive Act where
  | connectOneShot : Act
  | connectStreaming : Act
  | feederExit : Act
  | receiveCall : Act
  | procExit : Act
  | recvWait : Act
  | recvCancel : Act
  | recvFinish : Act
  | closeBegin : Act
  | closeGraceful : Act
  | closeTimeout : Act
  | closeFinish : Act
  deriving DecidableEq, Repr

/-- One transition.  `none` means the action is not enabled in this state.

* `connectOneShot` / `connectStreaming`: the whole successful `Connect`
  body under the mutex — temp stderr file created, pipes created, process
  started, `connected` set; one-shot mode closes stdin immediately,
  streaming mode starts the feeder goroutine.
* `feederExit`: `streamToStdin` returns by any of its exit paths (channel
  exhaustion, context cancellation, `receiveDone`, write error) and runs
  its deferred guarded close of stdin.
* `receiveCall`: `Receive` on a connected transport spawns one decode
  goroutine (there is no guard against calling it again).
* `procExit`: the subprocess exits on its own.
* `recvWait`: the decode goroutine's `t.cmd.Wait()` returns (the process
  has exited); the goroutine moves on towards its deferred functions.
* `recvCancel`: the decode goroutine returns early (context cancelled
  while delivering), skipping `Wait`.
* `recvFinish`: the goroutine runs `defer close(t.receiveDone)`; closing
  an already closed channel panics.
* `closeBegin`: `Close` takes the mutex; if not connected it returns nil
  at once, otherwise it clears `connected`, runs the guarded stdin close
  and enters the select.
* `closeGraceful`: the select sees `receiveDone` already closed.
* `closeTimeout`: five seconds pass without the completion signal; `Close`
  calls `Process.Kill`, and on a kill error returns that error without
  running `cleanup`.
* `closeFinish`: `cleanup` — close stdin (unconditionally) and stdout,
  close and remove the stderr temp file — then return nil. -/
def step (s : TransportState) (a : Act) : Option TransportState :=
  match a with
  | .connectOneShot =>
      if s.connected || s.started || !(s.closePhase = .idle) then none
      else some { s with
        connected := true
        started := true
        stdinPresent := true
        stderrFileOnDisk := true
        stdinClosed := true
        stdinCloseCalls := s.stdinCloseCalls + 1 }
  | .connectStreaming =>
      if s.connected || s.started || !(s.closePhase = .idle) then none
      else some { s with
        connected := true
        started := true
        stdinPresent := true
        stderrFileOnDisk := true
        feederRunning := true }
  | .feederExit =>
      if s.feederRunning then
        if s.stdinClosed then some { s with feederRunning := false }
        else some { s with
          feederRunning := false
          stdinClosed := true
          stdinCloseCalls := s.stdinCloseCalls + 1 }
      else none
  | .receiveCall =>
      if s.connected then
        some { s with
          recvScanning := s.recvScanning + 1
          receiveCalls := s.receiveCalls + 1 }
      else none
  | .procExit =>
      if s.started && !s.procExited then some { s with procExited := true }
      else none
  | .recvWait =>
      if 0 < s.recvScanning && s.procExited then
        some { s with
          recvScanning := s.recvScanning - 1
          recvPreClose := s.recvPreClose + 1
          recvWaited := true
          waitCalls := s.waitCalls + 1 }
      else none
  | .recvCancel =>
      if 0 < s.recvScanning then
        some { s with
          recvScanning := s.recvScanning - 1
          recvPreClose := s.recvPreClose + 1 }
      else none
  | .recvFinish =>
      if 0 < s.recvPreClose then
        some { s with
          recvPreClose := s.recvPreClose - 1
          recvFinishCount := s.recvFinishCount + 1
          receiveDoneClosed := true
          panicked := s.panicked || s.receiveDoneClosed }
      else none
  | .closeBegin =>
      if s.closePhase = .idle then
        if s.connected then
          if !s.stdinClosed && s.stdinPresent then
            some { s with
              connected := false
              closePhase := .selecting
              stdinClosed := true
              stdinCloseCalls := s.stdinCloseCalls + 1 }
          else
            some { s with
              connected := false
              closePhase := .selecting }
        else some { s with closeReturns := s.closeReturns ++ [true] }
      else none
  | .closeGraceful =>
      if s.closePhase = .selecting && s.receiveDoneClosed then
        some { s with closePhase := .cleaning }
      else none
  | .closeTimeout =>
      if s.closePhase = .selecting && !s.receiveDoneClosed then
        if s.started then
          if s.recvWaited then
            some { s with
              closePhase := .idle
              killCalls := s.killCalls + 1
              closeReturns := s.closeReturns ++ [false] }
          else
            some { s with
              closePhase := .cleaning
              killCalls := s.killCalls + 1
              procExited := true }
        else some { s with closePhase := .cleaning }
      else none
  | .closeFinish =>
      if s.closePhase = .cleaning then
        some { s with
          closePhase := .idle
          stdinCloseCalls :=
            if s.stdinPresent then s.stdinCloseCalls + 1 else s.stdinCloseCalls
          stderrFileOnDisk := false
          closeReturns := s.closeReturns ++ [true] }
      else none

/-- Execute a sequence of actions; `none` if any action is not enabled. -/
def run (s : TransportState) : List Act → Option TransportState
  | [] => some s
  | a :: tr =>
      match step s a with
      | some s2 => run s2 tr
      | none => none

theorem run_append (s : TransportState) (t1 t2 : List Act) :
    run s (t1 ++ t2) = (run s t1).bind (fun s1 => run s1 t2) := by
  induction t1 generalizing s with
  | nil => rfl
  | cons a t1 ih =>
      show run s (a :: (t1 ++ t2)) = _
      simp only [run]
      cases step s a with
      | none => rfl
      | some s2 => exact ih s2

/-- The reachability invariant of the transport lifecycle.  It ties the
instrumentation counters to the guard flags: the `stdinClosed` flag holds
exactly when stdin has been closed at least once; `receiveDone` is closed
exactly when at least one decode goroutine has finished; the panic flag is
set exactly when a second goroutine closed the already-closed channel;
goroutines are conserved; waits only come from decode goroutines; an
error-returning `Close` implies the process had already been reaped. -/
structure Inv (s : TransportState) : Prop where
  started_of_connected : s.connected = true → s.started = true
  stdin_of_connected : s.connected = true → s.stdinPresent = true
  fresh_of_not_started : s.started = false → s.connected = false ∧
    s.stdinPresent = false ∧ s.stdinClosed = false ∧ s.stdinCloseCalls = 0 ∧
    s.closePhase = .idle ∧ s.receiveCalls = 0 ∧ s.feederRunning = false
  close_inflight : s.closePhase ≠ .idle → s.started = true ∧
    s.stdinPresent = true ∧ s.stdinClosed = true ∧ s.connected = false
  stdin_iff : s.stdinClosed = true ↔ 1 ≤ s.stdinCloseCalls
  done_iff : s.receiveDoneClosed = true ↔ 1 ≤ s.recvFinishCount
  panicked_iff : s.panicked = true ↔ 2 ≤ s.recvFinishCount
  goroutine_count : s.recvScanning + s.recvPreClose + s.recvFinishCount = s.receiveCalls
  wait_le : s.waitCalls ≤ s.recvPreClose + s.recvFinishCount
  waited_wait : s.recvWaited = true → 1 ≤ s.waitCalls
  err_return : false ∈ s.closeReturns → s.recvWaited = true
  cleaning_kill : s.closePhase = .cleaning → 1 ≤ s.killCalls ∨ 1 ≤ s.recvFinishCount

theorem inv_init : Inv TransportState.init := by
  constructor <;> simp [TransportState.init]

set_option maxHeartbeats 1000000 in
theorem inv_step {s s2 : TransportState} {a : Act} (hI : Inv s)
    (h : step s a = some s2) : Inv s2 := by
  obtain ⟨i1, i2, i3, i4, i5, i6, i7, i8, i9, i10, i11, i12⟩ := hI
  cases a with
  | connectOneShot =>
      simp only [step] at h
      split at h
      · exact Option.noConfusion h
      · injection h with h
        subst h
        refine ⟨?_, ?_, ?_, ?_, ?_, ?_, ?_, ?_, ?_, ?_, ?_, ?_⟩ <;>
          simp_all <;> omega
  | connectStreaming =>
      simp only [step] at h
      split at h
      · exact Option.noConfusion h
      · injection h with h
        subst h
        refine ⟨?_, ?_, ?_, ?_, ?_, ?_, ?_, ?_, ?_, ?_, ?_, ?_⟩ <;>
          simp_all <;> omega
  | feederExit =>
      simp only [step] at h
      split at h
      · split at h <;> (injection h with h; subst h) <;>
          refine ⟨?_, ?_, ?_, ?_, ?_, ?_, ?_, ?_, ?_, ?_, ?_, ?_⟩ <;>
          simp_all <;> omega
      · exact Option.noConfusion h
  | receiveCall =>
      simp only [step] at h
      split at h
      · injection h with h
        subst h
        refine ⟨?_, ?_, ?_, ?_, ?_, ?_, ?_, ?_, ?_, ?_, ?_, ?_⟩ <;>
          simp_all <;> omega
      · exact Option.noConfusion h
  | procExit =>
      simp only [step] at h
      split at h
      · injection h with h
        subst h
        exact ⟨i1, i2, i3, i4, i5, i6, i7, i8, i9, i10, i11, i12⟩
      · exact Option.noConfusion h
  | recvWait =>
      simp only [step] at h
      split at h
      · injection h with h
        subst h
        refine ⟨?_, ?_, ?_, ?_, ?_, ?_, ?_, ?_, ?_, ?_, ?_, ?_⟩ <;>
          simp_all <;> omega
      · exact Option.noConfusion h
  | recvCancel =>
      simp only [step] at h
      split at h
      · injection h with h
        subst h
        refine ⟨?_, ?_, ?_, ?_, ?_, ?_, ?_, ?_, ?_, ?_, ?_, ?_⟩ <;>
          simp_all <;> omega
      · exact Option.noConfusion h
  | recvFinish =>
      simp only [step] at h
      split at h
      · injection h with h
        subst h
        refine ⟨?_, ?_, ?_, ?_, ?_, ?_, ?_, ?_, ?_, ?_, ?_, ?_⟩ <;>
          simp_all <;> omega
      · exact Option.noConfusion h
  | closeBegin =>
      simp only [step] at h
      split at h
      · split at h
        · split at h <;> (injection h with h; subst h) <;>
            refine ⟨?_, ?_, ?_, ?_, ?_, ?_, ?_, ?_, ?_, ?_, ?_, ?_⟩ <;>
            simp_all <;> omega
        · injection h with h
          subst h
          refine ⟨?_, ?_, ?_, ?_, ?_, ?_, ?_, ?_, ?_, ?_, ?_, ?_⟩ <;>
            simp_all <;> omega
      · exact Option.noConfusion h
  | closeGraceful =>
      simp only [step] at h
      split at h
      · injection h with h
        subst h
        refine ⟨?_, ?_, ?_, ?_, ?_, ?_, ?_, ?_, ?_, ?_, ?_, ?_⟩ <;>
          simp_all <;> omega
      · exact Option.noConfusion h
  | closeTimeout =>
      simp only [step] at h
      split at h
      · split at h
        · split at h <;> (injection h with h; subst h) <;>
            refine ⟨?_, ?_, ?_, ?_, ?_, ?_, ?_, ?_, ?_, ?_, ?_, ?_⟩ <;>
            simp_all <;> omega
        · injection h with h
          subst h
          refine ⟨?_, ?_, ?_, ?_, ?_, ?_, ?_, ?_, ?_, ?_, ?_, ?_⟩ <;>
            simp_all <;> omega
      · exact Option.noConfusion h
  | closeFinish =>
      simp only [step] at h
      split at h
      · injection h with h
        subst h
        refine ⟨?_, ?_, ?_, ?_, ?_, ?_, ?_, ?_, ?_, ?_, ?_, ?_⟩ <;>
          simp_all <;> omega
      · exact Option.noConfusion h

theorem inv_run {s s2 : TransportState} {tr : List Act} (hI : Inv s)
    (h : run s tr = some s2) : Inv s2 := by
  induction tr generalizing s with
  | nil =>
      simp only [run] at h
      injection h with h
      subst h
      exact hI
  | cons a tr ih =>
      simp only [run] at h
      cases hs : step s a with
      | none => rw [hs] at h; exact Option.noConfusion h
      | some s1 => rw [hs] at h; exact ih (inv_step hI hs) h

theorem run_cons {s s2 : TransportState} {a : Act} {tr : List Act}
    (h : run s (a :: tr) = some s2) :
    ∃ sm, step s a = some sm ∧ run sm tr = some s2 := by
  simp only [run] at h
  cases hsm : step s a with
  | none => rw [hsm] at h; exact Option.noConfusion h
  | some sm => rw [hsm] at h; exact ⟨sm, rfl, h⟩

set_option maxHeartbeats 1000000 in
/-- The instrumentation counters only grow along a step, `started` is never
unset, and once the process is started the stderr file is never re-created
after removal. -/
theorem step_mono {s s2 : TransportState} {a : Act} (h : step s a = some s2) :
    s.receiveCalls ≤ s2.receiveCalls ∧ s.killCalls ≤ s2.killCalls ∧
      s.recvFinishCount ≤ s2.recvFinishCount ∧
      s.stdinCloseCalls ≤ s2.stdinCloseCalls ∧
      (s.started = true → s2.started = true) ∧
      (s.stderrFileOnDisk = false → s.started = true →
        s2.stderrFileOnDisk = false) := by
  cases a <;> simp only [step] at h <;> (repeat' split at h) <;>
    (try exact Option.noConfusion h) <;> (injection h with h; subst h) <;>
    refine ⟨?_, ?_, ?_, ?_, ?_, ?_⟩ <;> simp_all

theorem run_mono {s s2 : TransportState} {tr : List Act}
    (h : run s tr = some s2) :
    s.receiveCalls ≤ s2.receiveCalls ∧ s.killCalls ≤ s2.killCalls ∧
      s.recvFinishCount ≤ s2.recvFinishCount ∧
      s.stdinCloseCalls ≤ s2.stdinCloseCalls ∧
      (s.started = true → s2.started = true) ∧
      (s.stderrFileOnDisk = false → s.started = true →
        s2.stderrFileOnDisk = false) := by
  induction tr generalizing s with
  | nil =>
      simp only [run] at h
      injection h with h
      subst h
      exact ⟨le_refl _, le_refl _, le_refl _, le_refl _, id, fun hf _ => hf⟩
  | cons a tr ih =>
      obtain ⟨sm, hsm, hrun⟩ := run_cons h
      obtain ⟨m1, m2, m3, m4, m5, m6⟩ := step_mono hsm
      obtain ⟨n1, n2, n3, n4, n5, n6⟩ := ih hrun
      refine ⟨le_trans m1 n1, le_trans m2 n2, le_trans m3 n3, le_trans m4 n4,
        fun hst => n5 (m5 hst), fun hf hst => n6 (m6 hf hst) (m5 hst)⟩

/-- C10: `Receive` installs no guard on the shared `receiveDone` channel:
whenever a second decode goroutine reaches its deferred
`close(t.receiveDone)` — which happens exactly when `Receive` was called
twice and both goroutines exited — the second close hits an already closed
channel and panics. -/
theorem second_receive_close_panics {tr : List Act} {s : TransportState}
    (h : run TransportState.init tr = some s) (h2 : 2 ≤ s.recvFinishCount) :
    s.panicked = true :=
  (inv_run inv_init h).panicked_iff.mpr h2

/-- Witness for C10: connect, call `Receive` twice, let both goroutines
run to completion; the run is valid and ends panicked. -/
theorem second_receive_close_panics_witness :
    ∃ s, run TransportState.init
        [.connectOneShot, .receiveCall, .receiveCall, .recvCancel, .recvCancel,
         .recvFinish, .recvFinish] = some s ∧ s.panicked = true := by
  cases hrun : run TransportState.init
      [.connectOneShot, .receiveCall, .receiveCall, .recvCancel, .recvCancel,
       .recvFinish, .recvFinish] with
  | none => exact absurd hrun (by decide)
  | some s =>
      have hmap : (run TransportState.init
          [.connectOneShot, .receiveCall, .receiveCall, .recvCancel, .recvCancel,
           .recvFinish, .recvFinish]).map TransportState.recvFinishCount
            = some 2 := by decide
      rw [hrun] at hmap
      injection hmap with hmap
      exact ⟨s, rfl, second_receive_close_panics hrun (by omega)⟩

/-- C9: if `Receive` is never called, nothing ever closes `receiveDone`, so
no `Close` can take the graceful branch of its select: every completed
`Close` from the connected state goes through the five-second timeout and
calls `Process.Kill`, even if the process already exited on its own. -/
theorem close_without_receive_forces_kill {tr : List Act} {s : TransportState}
    (h : run TransportState.init tr = some s) (hrc : s.receiveCalls = 0) :
    s.receiveDoneClosed = false ∧ Act.closeGraceful ∉ tr ∧
      (Act.closeFinish ∈ tr → 1 ≤ s.killCalls) := by
  have hInv := inv_run inv_init h
  have h7 := hInv.goroutine_count
  refine ⟨?_, ?_, ?_⟩
  · cases hb : s.receiveDoneClosed
    · rfl
    · have := hInv.done_iff.mp hb
      omega
  · intro hmem
    obtain ⟨t1, t2, rfl⟩ := List.append_of_mem hmem
    rw [run_append] at h
    cases h1 : run TransportState.init t1 with
    | none => rw [h1] at h; exact Option.noConfusion h
    | some s1 =>
        rw [h1] at h
        obtain ⟨sm, hsm, hrun⟩ := run_cons h
        have hInv1 := inv_run inv_init h1
        simp only [step] at hsm
        split at hsm
        · rename_i hcond
          rw [Bool.and_eq_true] at hcond
          obtain ⟨hc1, hc2⟩ := hcond
          injection hsm with hsm
          subst hsm
          have hd : 1 ≤ s1.recvFinishCount := hInv1.done_iff.mp hc2
          have hg := hInv1.goroutine_count
          have hm : s1.receiveCalls ≤ s.receiveCalls := (run_mono hrun).1
          omega
        · exact Option.noConfusion hsm
  · intro hmem
    obtain ⟨t1, t2, rfl⟩ := List.append_of_mem hmem
    rw [run_append] at h
    cases h1 : run TransportState.init t1 with
    | none => rw [h1] at h; exact Option.noConfusion h
    | some s1 =>
        rw [h1] at h
        obtain ⟨sm, hsm, hrun⟩ := run_cons h
        have hInv1 := inv_run inv_init h1
        simp only [step] at hsm
        split at hsm
        · rename_i hcl
          injection hsm with hsm
          subst hsm
          have hkill := hInv1.cleaning_kill hcl
          have hg := hInv1.goroutine_count
          have hm1 : s1.receiveCalls ≤ s.receiveCalls := (run_mono hrun).1
          have hm2 : s1.killCalls ≤ s.killCalls := (run_mono hrun).2.1
          rcases hkill with hk | hf
          · omega
          · omega
        · exact Option.noConfusion hsm

/-- Witness for C9: connect one-shot, let the process exit on its own,
then `Close`: the graceful branch never occurs and the process is
force-killed. -/
theorem close_without_receive_forces_kill_witness :
    ∃ s, run TransportState.init
        [.connectOneShot, .procExit, .closeBegin, .closeTimeout, .closeFinish]
          = some s ∧
      s.receiveDoneClosed = false ∧
      Act.closeGraceful ∉
        [Act.connectOneShot, Act.procExit, Act.closeBegin, Act.closeTimeout,
         Act.closeFinish] ∧
      1 ≤ s.killCalls := by
  cases hrun : run TransportState.init
      [.connectOneShot, .procExit, .closeBegin, .closeTimeout, .closeFinish] with
  | none => exact absurd hrun (by decide)
  | some s =>
      have hmap : (run TransportState.init
          [.connectOneShot, .procExit, .closeBegin, .closeTimeout,
           .closeFinish]).map TransportState.receiveCalls = some 0 := by decide
      rw [hrun] at hmap
      injection hmap with hmap
      obtain ⟨hd, hg, hk⟩ := close_without_receive_forces_kill hrun hmap
      exact ⟨s, rfl, hd, hg, hk (by decide)⟩

/-- C4 counterexample: in the ordinary feeder-exhaustion-then-`Close` run
of a streaming transport, `stdin.Close()` is invoked twice — once by the
feeder's guarded deferred close and once more by `cleanup()`, which closes
stdin unconditionally without consulting the `stdinClosed` flag.  The
input pipe is therefore not closed exactly once. -/
theorem stdin_close_not_exactly_once :
    (run TransportState.init
        [.connectStreaming, .feederExit, .closeBegin, .closeTimeout,
         .closeFinish]).map
      (fun s => (s.stdinCloseCalls, s.stdinClosed)) = some (2, true) := by
  decide

/-- C4 amended: in every execution the `stdinClosed` guard flag holds
exactly when stdin has been closed at least once — so every exit path
leaves the pipe closed — but `Close` calls on the pipe are not limited to
one, because `cleanup()` closes it unconditionally. -/
theorem stdin_closed_iff_at_least_once {tr : List Act} {s : TransportState}
    (h : run TransportState.init tr = some s) :
    s.stdinClosed = true ↔ 1 ≤ s.stdinCloseCalls :=
  (inv_run inv_init h).stdin_iff

/-- Witness for the amended C4 at the one-shot connect trace. -/
theorem stdin_closed_iff_at_least_once_witness :
    ∃ s, run TransportState.init [.connectOneShot] = some s ∧
      (s.stdinClosed = true ↔ 1 ≤ s.stdinCloseCalls) := by
  cases hrun : run TransportState.init [.connectOneShot] with
  | none => exact absurd hrun (by decide)
  | some s => exact ⟨s, rfl, stdin_closed_iff_at_least_once hrun⟩

/-- C5 counterexample: the process exits, the decode goroutine returns from
`cmd.Wait()` but has not yet run its deferred `close(receiveDone)`; `Close`
times out, `Process.Kill` fails with `ErrProcessDone` because the process
was already reaped, and `Close` returns that error without running
`cleanup` — the stderr temp file is still on disk after `Close` completed
from the connected state. -/
theorem close_can_leave_stderr_file :
    (run TransportState.init
        [.connectOneShot, .receiveCall, .procExit, .recvWait, .closeBegin,
         .closeTimeout]).map
      (fun s => (s.stderrFileOnDisk, s.closeReturns, s.closePhase))
        = some (true, [false], ClosePhase.idle) := by
  decide

/-- C5 amended: on every teardown in which `cleanup` runs — that is, every
`Close` not aborted by a failing force-kill — the stderr temp file is
removed from disk and stays removed for the rest of the execution. -/
theorem cleanup_removes_stderr_file {t1 t2 : List Act} {s : TransportState}
    (h : run TransportState.init (t1 ++ Act.closeFinish :: t2) = some s) :
    s.stderrFileOnDisk = false := by
  rw [run_append] at h
  cases h1 : run TransportState.init t1 with
  | none => rw [h1] at h; exact Option.noConfusion h
  | some s1 =>
      rw [h1] at h
      obtain ⟨sm, hsm, hrun⟩ := run_cons h
      have hInv1 := inv_run inv_init h1
      simp only [step] at hsm
      split at hsm
      · rename_i hcl
        injection hsm with hsm
        subst hsm
        have hs1 : s1.started = true :=
          (hInv1.close_inflight (by rw [hcl]; exact fun hc => ClosePhase.noConfusion hc)).1
        exact (run_mono hrun).2.2.2.2.2 rfl hs1
      · exact Option.noConfusion hsm

/-- Witness for the amended C5: a full graceful connect/receive/close run
ends with the stderr file removed. -/
theorem cleanup_removes_stderr_file_witness :
    ∃ s, run TransportState.init
        ([.connectOneShot, .receiveCall, .procExit, .recvWait, .recvFinish,
          .closeBegin, .closeGraceful] ++ Act.closeFinish :: []) = some s ∧
      s.stderrFileOnDisk = false := by
  cases hrun : run TransportState.init
      ([.connectOneShot, .receiveCall, .procExit, .recvWait, .recvFinish,
        .closeBegin, .closeGraceful] ++ Act.closeFinish :: []) with
  | none => exact absurd hrun (by decide)
  | some s => exact ⟨s, rfl, cleanup_removes_stderr_file hrun⟩

/-- C6 counterexample: the process exits on its own and is reaped by the
decode goroutine, which is then delayed before publishing its completion
signal; the first `Close` times out, `Process.Kill` fails with
`ErrProcessDone`, and that `Close` returns a non-nil error even though the
only problem was that the process had already exited.  (The second `Close`
returns nil.) -/
theorem close_after_exit_can_return_error :
    (run TransportState.init
        [.connectOneShot, .receiveCall, .procExit, .recvWait, .closeBegin,
         .closeTimeout, .closeBegin]).map
      (fun s => (s.closeReturns, s.procExited)) = some ([false, true], true) := by
  decide

/-- C6 amended: `Close` never waits on the process (waits only come from
decode goroutines), a `Close` on an already closed transport returns nil,
and a `Close` can return a non-nil error only in the race where the decode
goroutine has already reaped the process (`Wait` returned) but the
completion signal was not yet published when the grace period expired. -/
theorem close_returns_nil_except_reap_race {tr : List Act} {s : TransportState}
    (h : run TransportState.init tr = some s) :
    (false ∈ s.closeReturns →
      s.recvWaited = true ∧ 1 ≤ s.waitCalls ∧ 1 ≤ s.receiveCalls) ∧
    s.waitCalls ≤ s.receiveCalls ∧
    (s.connected = false → s.closePhase = .idle →
      run s [Act.closeBegin] =
        some { s with closeReturns := s.closeReturns ++ [true] }) := by
  have hInv := inv_run inv_init h
  have hg := hInv.goroutine_count
  have hw := hInv.wait_le
  refine ⟨?_, by omega, ?_⟩
  · intro hf
    have hwd := hInv.err_return hf
    have h1 := hInv.waited_wait hwd
    exact ⟨hwd, h1, by omega⟩
  · intro hc hp
    simp [run, step, hc, hp]

/-- Witness for the amended C6 at the error-returning race trace followed
by a second `Close`. -/
theorem close_returns_nil_except_reap_race_witness :
    ∃ s, run TransportState.init
        [.connectOneShot, .receiveCall, .procExit, .recvWait, .closeBegin,
         .closeTimeout, .closeBegin] = some s ∧
      (false ∈ s.closeReturns →
        s.recvWaited = true ∧ 1 ≤ s.waitCalls ∧ 1 ≤ s.receiveCalls) ∧
      s.waitCalls ≤ s.receiveCalls := by
  cases hrun : run TransportState.init
      [.connectOneShot, .receiveCall, .procExit, .recvWait, .closeBegin,
       .closeTimeout, .closeBegin] with
  | none => exact absurd hrun (by decide)
  | some s =>
      obtain ⟨ha, hb, -⟩ := close_returns_nil_except_reap_race hrun
      exact ⟨s, rfl, ha, hb⟩

/-! ## CLI resolution (`findCLI`) and the failure paths of `Connect` -/

/-- The filesystem and search-path environment consulted by `findCLI`:
`statExists p` is `os.Stat(p) == nil`, `lookPath` is `exec.LookPath`, and
`home` is `os.Getenv("HOME")`. -/
structure CLIEnv where
  statExists : String → Bool
  lookPath : String → Option String
  home : String

/-- `filepath.Join(home, rel)` for the clean relative paths used in
`findCLI` (no trailing separators, non-empty components). -/
def joinPath (home rel : String) : String :=
  if home = "" then rel else home ++ "/" ++ rel

/-- The fixed list of well-known install locations checked by `findCLI`,
in source order. -/
def cliLocations (home : String) : List String :=
  [joinPath home ".npm-global/bin/claude",
   "/usr/local/bin/claude",
   joinPath home ".local/bin/claude",
   joinPath home "node_modules/.bin/claude",
   joinPath home ".yarn/bin/claude"]

/-- `ErrClaudeNotInstalled.Error()`. -/
def errClaudeNotInstalled : String := "claude-code: CLI not installed"

/-- `ErrConnectionFailed.Error()`. -/
def errConnectionFailed : String := "claude-code: connection failed"

/-- The remediation message when Node.js is missing. -/
def nodeMissingMsg : String :=
  "Claude Code requires Node.js, which is not installed.\n\n" ++
  "Install Node.js from: https://nodejs.org/\n" ++
  "\nAfter installing Node.js, install Claude Code:\n" ++
  "  npm install -g @anthropic-ai/claude-code"

/-- The remediation message when Node.js is present but the CLI is not
found. -/
def claudeMissingMsg : String :=
  "Claude Code not found. Install with:\n" ++
  "  npm install -g @anthropic-ai/claude-code\n" ++
  "\nIf already installed locally, try:\n" ++
  "  export PATH=\"$HOME/node_modules/.bin:$PATH\"\n" ++
  "\nOr specify the path when creating the client:\n" ++
  "  New(WithCLIPath(\"/path/to/claude\"))"

/-- `SubprocessTransport.findCLI`: explicit override first (must exist on
disk, else a path-specific error), then `exec.LookPath("claude")`, then the
well-known locations in order, and finally an error tailored by whether
Node.js is on the search path. -/
def findCLI (env : CLIEnv) (cliPath : String) : Except String String :=
  if cliPath ≠ "" then
    if env.statExists cliPath then .ok cliPath
    else .error ("claude CLI not found at specified path: " ++ cliPath)
  else
    match env.lookPath "claude" with
    | some p => .ok p
    | none =>
      match (cliLocations env.home).find? env.statExists with
      | some loc => .ok loc
      | none =>
        if (env.lookPath "node").isNone then .error nodeMissingMsg
        else .error claudeMissingMsg

/-- C7: the resolution policy of `findCLI`, step by step: a set override is
authoritative (used when it exists, a path-specific failure independent of
the rest of the environment otherwise), then the search path, then the
first hit among the fixed install locations, then the runtime-tailored
error. -/
theorem findCLI_resolution_order (env : CLIEnv) (cliPath : String) :
    (cliPath ≠ "" → env.statExists cliPath = true →
      findCLI env cliPath = .ok cliPath) ∧
    (cliPath ≠ "" → env.statExists cliPath = false →
      findCLI env cliPath =
        .error ("claude CLI not found at specified path: " ++ cliPath)) ∧
    (cliPath ≠ "" → env.statExists cliPath = false →
      ∀ env2 : CLIEnv, env2.statExists cliPath = false →
        findCLI env2 cliPath = findCLI env cliPath) ∧
    (∀ p, cliPath = "" → env.lookPath "claude" = some p →
      findCLI env cliPath = .ok p) ∧
    (∀ loc, cliPath = "" → env.lookPath "claude" = none →
      (cliLocations env.home).find? env.statExists = some loc →
      findCLI env cliPath = .ok loc) ∧
    (cliPath = "" → env.lookPath "claude" = none →
      (cliLocations env.home).find? env.statExists = none →
      findCLI env cliPath = .error
        (if (env.lookPath "node").isNone then nodeMissingMsg
         else claudeMissingMsg)) := by
  refine ⟨?_, ?_, ?_, ?_, ?_, ?_⟩
  · intro hne hex
    simp [findCLI, hne, hex]
  · intro hne hex
    simp [findCLI, hne, hex]
  · intro hne hex env2 hex2
    simp [findCLI, hne, hex, hex2]
  · intro p he hp
    simp [findCLI, he, hp]
  · intro loc he hp hfind
    simp [findCLI, he, hp, hfind]
  · intro he hp hfind
    by_cases hn : (env.lookPath "node").isNone <;>
      simp [findCLI, he, hp, hfind, hn]

/-- Witness for C7: a filesystem on which only `/usr/local/bin/claude`
exists and the search path is empty resolves to that location. -/
theorem findCLI_resolution_order_witness :
    findCLI ⟨fun p => p == "/usr/local/bin/claude", fun _ => none, "/root"⟩ ""
      = .ok "/usr/local/bin/claude" := by
  have h := (findCLI_resolution_order
    ⟨fun p => p == "/usr/local/bin/claude", fun _ => none, "/root"⟩ "").2.2.2.2.1
  exact h "/usr/local/bin/claude" rfl rfl (by decide)

/-- The launch parameters of `Connect` relevant to CLI resolution and
working-directory validation. -/
structure ConnectOpts where
  cliPath : String
  workingDirectory : String

/-- The environment consulted by `Connect`: the CLI resolution environment,
whether `os.CreateTemp` and the two pipe creations succeed, an intrinsic
`cmd.Start` failure (message of the underlying error, `none` for success),
and whether the configured working directory exists.  Modelled from the Go
standard library: starting a command with a non-existent `Dir` fails. -/
structure ConnectEnv where
  cli : CLIEnv
  tempOk : Bool
  stdinPipeOk : Bool
  stdoutPipeOk : Bool
  startErr : Option String
  workDirExists : Bool

/-- Outcome of one `Connect` call: the returned error (OS error detail
suffixes are omitted on the pipe/temp-file branches, which no theorem
inspects), whether a subprocess is left running, and whether the stderr
temp file is left on disk. -/
structure ConnectOutcome where
  result : Except String Unit
  processRunning : Bool
  stderrFileOnDisk : Bool

/-- `SubprocessTransport.Connect` up to the point of success or failure:
`buildCommand` (whose only failure source here is `findCLI`, wrapped in
`ErrClaudeNotInstalled`), the stderr temp file, the stdin/stdout pipes
(failures run `cleanup`, removing the temp file), then `cmd.Start`; on a
start failure with a configured but missing working directory the error
names that directory, and `cleanup` has run. -/
def connectModel (env : ConnectEnv) (opts : ConnectOpts) : ConnectOutcome :=
  match findCLI env.cli opts.cliPath with
  | .error e => ⟨.error (errClaudeNotInstalled ++ ": " ++ e), false, false⟩
  | .ok _ =>
    if !env.tempOk then
      ⟨.error (errConnectionFailed ++ ": failed to create stderr file"), false, false⟩
    else if !env.stdinPipeOk then
      ⟨.error (errConnectionFailed ++ ": failed to create stdin pipe"), false, false⟩
    else if !env.stdoutPipeOk then
      ⟨.error (errConnectionFailed ++ ": failed to create stdout pipe"), false, false⟩
    else if opts.workingDirectory ≠ "" && !env.workDirExists then
      ⟨.error (errConnectionFailed ++ ": working directory does not exist: "
        ++ opts.workingDirectory), false, false⟩
    else
      match env.startErr with
      | some msg => ⟨.error (errConnectionFailed ++ ": " ++ msg), false, false⟩
      | none => ⟨.ok (), true, true⟩

/-- `msg` names `sub` when `sub` occurs verbatim inside `msg`. -/
def mentions (msg sub : String) : Prop := sub.data <:+: msg.data

/-- An environment in which no path exists on disk. -/
def demoEnvNothing : ConnectEnv :=
  ⟨⟨fun _ => false, fun _ => none, "/root"⟩, true, true, true, none, false⟩

set_option maxRecDepth 40000 in
/-- C8 counterexample: a configuration whose working directory is missing
but whose explicit CLI override is also missing fails in CLI resolution
first; the returned error names the override path, not the working
directory, and the claimed for-every-configuration guarantee fails. -/
theorem connect_error_can_omit_workdir :
    (connectModel demoEnvNothing ⟨"/missing-cli", "/missing-dir"⟩).result
        = .error ("claude-code: CLI not installed: claude CLI not found at specified path: /missing-cli") ∧
      ¬ mentions
        "claude-code: CLI not installed: claude CLI not found at specified path: /missing-cli"
        "/missing-dir" ∧
      (connectModel demoEnvNothing ⟨"/missing-cli", "/missing-dir"⟩).processRunning
        = false := by
  refine ⟨rfl, ?_, rfl⟩
  rw [mentions]
  decide

/-- C8 amended: provided CLI resolution succeeds and the temp file and
pipes are created, `Connect` with a configured non-existent working
directory fails with an error that names that directory, and no subprocess
is left running. -/
theorem connect_invalid_workdir_names_directory
    (env : ConnectEnv) (opts : ConnectOpts)
    (hcli : ∃ p, findCLI env.cli opts.cliPath = .ok p)
    (htemp : env.tempOk = true) (hin : env.stdinPipeOk = true)
    (hout : env.stdoutPipeOk = true)
    (hwd : opts.workingDirectory ≠ "") (hex : env.workDirExists = false) :
    (connectModel env opts).result =
      .error (errConnectionFailed ++ ": working directory does not exist: "
        ++ opts.workingDirectory) ∧
    mentions (errConnectionFailed ++ ": working directory does not exist: "
        ++ opts.workingDirectory) opts.workingDirectory ∧
    (connectModel env opts).processRunning = false := by
  obtain ⟨p, hp⟩ := hcli
  have hmodel : connectModel env opts =
      ⟨.error (errConnectionFailed ++ ": working directory does not exist: "
        ++ opts.workingDirectory), false, false⟩ := by
    unfold connectModel
    rw [hp]
    simp [htemp, hin, hout, hwd, hex]
  refine ⟨by rw [hmodel], ?_, by rw [hmodel]⟩
  rw [mentions, String.data_append]
  exact (List.suffix_append _ _).isInfix

/-- Witness for the amended C8: search path finds the CLI, working
directory `/nope` does not exist. -/
theorem connect_invalid_workdir_names_directory_witness :
    (connectModel
        ⟨⟨fun _ => false, fun n => if n = "claude" then some "/usr/bin/claude" else none,
          "/root"⟩, true, true, true, none, false⟩ ⟨"", "/nope"⟩).result =
      .error (errConnectionFailed ++ ": working directory does not exist: /nope") ∧
    (connectModel
        ⟨⟨fun _ => false, fun n => if n = "claude" then some "/usr/bin/claude" else none,
          "/root"⟩, true, true, true, none, false⟩ ⟨"", "/nope"⟩).processRunning = false := by
  have h := connect_invalid_workdir_names_directory
    ⟨⟨fun _ => false, fun n => if n = "claude" then some "/usr/bin/claude" else none,
      "/root"⟩, true, true, true, none, false⟩ ⟨"", "/nope"⟩
    ⟨"/usr/bin/claude", rfl⟩ rfl rfl rfl (by decide) rfl
  exact ⟨h.1, h.2.2⟩

end ClaudeCode
